import Mathlib

/-!
Verification of the chunked-framing transport layer implemented in
`src/roslibpy/comm/comm_cli.py` (class `CliRosBridgeProtocol`, class
`CliRosBridgeClientFactory`, class `CliEventLoopManager`).

The Python code drives a .NET `ClientWebSocket` from IronPython.  The shallow
embedding below models the sequential behaviour of one connection:

* the `SemaphoreSlim(1)` write lock is a natural-number count (`SemaphoreSlim`
  created with only an initial count has no maximum, so `Release` always
  succeeds and simply increments the count; `Wait` decrements the count when
  it is positive and blocks when it is zero — with no concurrent releaser a
  blocked `Wait` never returns, which the model renders as a `blocked`
  outcome);
* the bytes of a received chunk are modelled by the string
  `Encoding.UTF8.GetString(buffer, 0, result.Count)` decodes them to,
  since the source only ever appends that decoded string to the assembly;
* an outbound payload is modelled by its byte length: the source computes
  every offset, count and flag from `message_length` alone, and an
  `ArraySegment` over the buffer is valid exactly when the requested range
  lies inside the buffer.
-/

/-- `System.Net.WebSockets.WebSocketState` values used by the source. -/
inductive WebSocketState where
  | None
  | Connecting
  | Open
  | CloseSent
  | CloseReceived
  | Closed
  | Aborted
  deriving DecidableEq, Repr

/-- `System.Net.WebSockets.WebSocketMessageType`. -/
inductive WebSocketMessageType where
  | Text
  | Binary
  | Close
  deriving DecidableEq, Repr

/-- The part of a `WebSocketReceiveResult` the source reads: the message type,
the `EndOfMessage` flag, and the UTF-8 decoding of the `Count` received bytes
(`Encoding.UTF8.GetString(context['buffer'], 0, result.Count)`). -/
structure ReceiveResult where
  text : String
  EndOfMessage : Bool
  MessageType : WebSocketMessageType
  deriving DecidableEq, Repr

/-- Outcome of handling one completed read inside `receive_chunk_async`
(lines 44-75 of `comm_cli.py`).  Each constructor carries the semaphore count
and the accumulated `context['content']` list at that point. -/
inductive RecvOutcome where
  | blocked (sem : Nat) (content : List String)
  | closed (sem : Nat) (content : List String)
  | done (sem : Nat) (content : List String)
  | more (sem : Nat) (content : List String)
  deriving DecidableEq, Repr

/-- The tail of `receive_chunk_async` after the conditional `semaphore.Wait`:
the `MessageType == Close` test, the UTF-8 decode and append, and — on
`EndOfMessage` — the unconditional `semaphore.Release()` followed by
`mre.Set()`.  On the `Close` branch the function returns `send_close()` and
never sets the manual reset event. -/
def receive_chunk_rest (sem : Nat) (content : List String) (result : ReceiveResult) :
    RecvOutcome :=
  if result.MessageType = WebSocketMessageType.Close then
    RecvOutcome.closed sem content
  else
    let content2 := content ++ [result.text]
    if result.EndOfMessage then
      RecvOutcome.done (sem + 1) content2
    else
      RecvOutcome.more sem content2

/-- One completed read handled by `receive_chunk_async`: when the fragment is
not the end of the message the code first executes
`self.semaphore.Wait(...)` — which blocks whenever the count is zero, and on
the receive path nothing ever releases while it is blocked — and only then
looks at the message type and content. -/
def receive_chunk_step (sem : Nat) (content : List String) (result : ReceiveResult) :
    RecvOutcome :=
  if !result.EndOfMessage then
    if sem = 0 then
      RecvOutcome.blocked sem content
    else
      receive_chunk_rest (sem - 1) content result
  else
    receive_chunk_rest sem content result

/-- Observable state of `start_listening` (lines 83-113): the semaphore count,
the `content` list of the message currently being assembled, the payloads
passed to `self.on_message` in order, the payloads whose handler raised (the
inner `except` logs them and the loop continues), and whether the loop is
stuck (a blocked `semaphore.Wait`, or the `Close` branch, after which
`mre.Wait` never returns because `mre.Set()` is never executed). -/
structure LoopState where
  sem : Nat
  content : List String
  dispatched : List String
  handlerErrors : List String
  stalled : Bool
  deriving DecidableEq, Repr

/-- Effect of one arriving chunk on the listening loop.  On `done` the loop
thread wakes from `mre.Wait`, joins the content (`''.join(content)`), invokes
`self.on_message` inside the inner `try`, and starts a fresh
`MessageAssembly` (new `content`, new `mre`) for the next message. -/
def listen_step (handlerRaises : String → Bool) (s : LoopState) (c : ReceiveResult) :
    LoopState :=
  if s.stalled then s
  else
    match receive_chunk_step s.sem s.content c with
    | RecvOutcome.blocked sem2 content2 =>
        { s with sem := sem2, content := content2, stalled := true }
    | RecvOutcome.closed sem2 content2 =>
        { s with sem := sem2, content := content2, stalled := true }
    | RecvOutcome.more sem2 content2 =>
        { s with sem := sem2, content := content2 }
    | RecvOutcome.done sem2 content2 =>
        { sem := sem2
          content := []
          dispatched := s.dispatched ++ [String.join content2]
          handlerErrors :=
            if handlerRaises (String.join content2) then
              s.handlerErrors ++ [String.join content2]
            else
              s.handlerErrors
          stalled := false }

/-- `start_listening` run over a finite sequence of inbound chunks while the
socket stays `Open`, starting from semaphore count `sem` (the constructor
sets `SemaphoreSlim(1)`, i.e. count 1) and an empty assembly. -/
def start_listening (handlerRaises : String → Bool) (sem : Nat)
    (chunks : List ReceiveResult) : LoopState :=
  chunks.foldl (listen_step handlerRaises) ⟨sem, [], [], [], false⟩

/-- Fixed chunk sizes from the top of `comm_cli.py`. -/
def SEND_CHUNK_SIZE : Nat := 1024

/-- Receive buffer size, `Array.CreateInstance(Byte, RECEIVE_CHUNK_SIZE)`. -/
def RECEIVE_CHUNK_SIZE : Nat := 1024

/-- One `SendAsync` call issued by `send_chunk_async`: the `ArraySegment`
offset and count, and the `is_last_message` end-of-message flag. -/
structure Write where
  offset : Nat
  count : Nat
  isLast : Bool
  deriving DecidableEq, Repr

/-- Exceptions that can escape the send path. -/
inductive SendError where
  | rosBridgeNotOpen (state : WebSocketState)
  | attributeErrorNoneState
  | argumentOutOfRange
  | transport (i : Nat)
  deriving DecidableEq, Repr

/-- `RosBridgeException` is the only error the send path raises on purpose;
everything else escaping is an incidental .NET/Python exception. -/
def SendError.isRosBridgeException : SendError → Bool
  | SendError.rosBridgeNotOpen _ => true
  | _ => false

/-- Result of the `send_chunk_async` chain: the `SendAsync` calls that were
issued in order, the exception that escaped (if any), and how many times
`semaphore.Release()` ran (the source releases only after issuing the
`SendAsync` of the last chunk; the `except` clause logs and re-raises without
releasing). -/
structure ChunkSendResult where
  writes : List Write
  error : Option SendError
  releases : Nat
  deriving DecidableEq, Repr

/-- `send_chunk_async` (lines 129-159) unrolled sequentially.  Fidelity notes:
`is_last_message = (i == chunks_count - 1)` is Python integer arithmetic, so
the comparison is taken over `Int` (for `chunks_count = 0` the right side is
`-1` and the first chunk is not last); the `ArraySegment[Byte](buffer, offset,
count)` constructor throws `ArgumentException` unless the range
`[offset, offset + count)` lies inside the `message_length`-byte buffer (in
Python the last-chunk `count = message_length - offset` can be negative, which
the truncated Nat subtraction together with the range check renders
identically as a constructor failure); `sendRaises i` models `SendAsync`
failing synchronously on chunk `i`.  The recursion `task.ContinueWith(...)`
runs next for each non-final chunk. -/
def send_chunk_async (sendRaises : Nat → Bool)
    (message_length chunks_count i : Nat) : ChunkSendResult :=
  if (i : Int) = (chunks_count : Int) - 1 then
    if SEND_CHUNK_SIZE * i + (message_length - SEND_CHUNK_SIZE * i) ≤ message_length then
      if sendRaises i then
        ⟨[], some (SendError.transport i), 0⟩
      else
        ⟨[⟨SEND_CHUNK_SIZE * i, message_length - SEND_CHUNK_SIZE * i, true⟩], none, 1⟩
    else
      ⟨[], some SendError.argumentOutOfRange, 0⟩
  else
    if hSeg : SEND_CHUNK_SIZE * i + SEND_CHUNK_SIZE ≤ message_length then
      if sendRaises i then
        ⟨[], some (SendError.transport i), 0⟩
      else
        let rest := send_chunk_async sendRaises message_length chunks_count (i + 1)
        ⟨⟨SEND_CHUNK_SIZE * i, SEND_CHUNK_SIZE, false⟩ :: rest.writes, rest.error, rest.releases⟩
    else
      ⟨[], some SendError.argumentOutOfRange, 0⟩
termination_by message_length - SEND_CHUNK_SIZE * i
decreasing_by
  simp only [SEND_CHUNK_SIZE] at hSeg ⊢
  omega

/-- Observable result of one `send_message` call: the writes issued, the
escaping exception (if any), the semaphore count when the call returns or the
exception escapes, how many `semaphore.Wait` / `semaphore.Release` calls were
made, and whether the `Wait` blocked forever (count zero, no concurrent
releaser). -/
structure SendResult where
  writes : List Write
  error : Option SendError
  sem : Nat
  waits : Nat
  releases : Nat
  blockedOnWait : Bool
  deriving DecidableEq, Repr

/-- `send_message` (lines 161-184).  The `WebSocketState` test runs before the
`try` block, on `self.socket.State`: when the socket has been set to `None` by
`dispose` the attribute access itself raises `AttributeError`.  Inside the
`try`: `semaphore.Wait`, then
`chunks_count = int(math.ceil(float(message_length) / SEND_CHunk...))`
— exact ceiling division here, since the double-precision quotient is exact
for every .NET array length (below 2^53) — and the synchronous part of the
`send_chunk_async` chain.  The `except` clause logs and re-raises without
touching the semaphore. -/
def send_message (sendRaises : Nat → Bool) (socket : Option WebSocketState)
    (sem message_length : Nat) : SendResult :=
  match socket with
  | none => ⟨[], some SendError.attributeErrorNoneState, sem, 0, 0, false⟩
  | some st =>
    if st ≠ WebSocketState.Open then
      ⟨[], some (SendError.rosBridgeNotOpen st), sem, 0, 0, false⟩
    else if sem = 0 then
      ⟨[], none, sem, 1, 0, true⟩
    else
      let chunks_count := (message_length + SEND_CHUNK_SIZE - 1) / SEND_CHUNK_SIZE
      let r := send_chunk_async sendRaises message_length chunks_count 0
      ⟨r.writes, r.error, (sem - 1) + r.releases, 1, r.releases, false⟩

/-- The chunk layout the specification promises for a send: written from the
spec's words (⌈L/C⌉ chunks, every non-final chunk of size `C`, the last chunk
the remainder, only the last flagged final), to be compared with the writes
`send_message` actually issues.  `specWritesAux L i k` lists the chunks with
indices `i, i+1, …, i+k-1`, the last of which is the final one. -/
def specWritesAux (message_length : Nat) : Nat → Nat → List Write
  | _, 0 => []
  | i, k + 1 =>
    ⟨SEND_CHUNK_SIZE * i,
     if k = 0 then message_length - SEND_CHUNK_SIZE * i else SEND_CHUNK_SIZE,
     k = 0⟩ :: specWritesAux message_length (i + 1) k

/-- Spec-side chunk layout for a whole payload of `message_length` bytes. -/
def specWrites (message_length : Nat) : List Write :=
  specWritesAux message_length 0 ((message_length + SEND_CHUNK_SIZE - 1) / SEND_CHUNK_SIZE)

/-- State touched by `dispose` (lines 186-197): the socket reference (set to
`None` once disposed), the manager's `ManualResetEventSlim` disconnect event,
the cancellation token, and call counters telling invocations apart from
state (the counters let a theorem distinguish "performed the call again" from
"changed observable state"). -/
structure ProtocolState where
  socket : Option WebSocketState
  disconnectEventSet : Bool
  tokenCanceled : Bool
  triggerDisconnectCalls : Nat
  tokenCancelCalls : Nat
  socketDisposeCalls : Nat
  deriving DecidableEq, Repr

/-- `dispose` runs unconditionally: `trigger_disconnect()` (sets the manual
reset event), then — `cancellation_token_source` is created in the manager's
constructor and never cleared, so the guard is always true — `Cancel()`, and
finally disposes the socket only when `self.socket` is not `None`, setting it
to `None`. -/
def dispose (s : ProtocolState) : ProtocolState :=
  let s1 := { s with disconnectEventSet := true,
                     triggerDisconnectCalls := s.triggerDisconnectCalls + 1 }
  let s2 := { s1 with tokenCanceled := true,
                      tokenCancelCalls := s1.tokenCancelCalls + 1 }
  match s2.socket with
  | some _ => { s2 with socket := none, socketDisposeCalls := s2.socketDisposeCalls + 1 }
  | none => s2

/-- A freshly connected protocol: open socket, nothing signalled yet. -/
def protoInit : ProtocolState :=
  ⟨some WebSocketState.Open, false, false, 0, 0, 0⟩

/-- State of `CliRosBridgeClientFactory` as far as readiness is concerned:
`self.proto`, the one-time listeners registered through `once('ready', cb)`,
and the log of callback invocations `(callback, protocol)` in order.
Callbacks and protocols are identified by numbers.

Modelled from the spec: the bodies of `once` and `emit` live in
`EventEmitterMixin` (`roslibpy/event_emitter.py`), which is not among the
analyzed sources; per the spec the mixin provides one-time subscription —
`once` registers a listener for an event, `emit` invokes every currently
registered one-time listener exactly once and removes it. -/
structure FactoryState where
  proto : Option Nat
  onceReady : List Nat
  calls : List (Nat × Nat)
  deriving DecidableEq, Repr

/-- Modelled from the spec: `once('ready', cb)` registers `cb` for one-time
delivery of the `ready` event. -/
def once (cb : Nat) (s : FactoryState) : FactoryState :=
  { s with onceReady := s.onceReady ++ [cb] }

/-- Modelled from the spec: `emit('ready', proto)` invokes each currently
registered one-time listener once, in registration order, and removes it. -/
def emit (p : Nat) (s : FactoryState) : FactoryState :=
  { s with onceReady := [],
           calls := s.calls ++ s.onceReady.map (fun cb => (cb, p)) }

/-- `ready` (lines 239-241): records the protocol, then emits. -/
def ready (p : Nat) (s : FactoryState) : FactoryState :=
  emit p { s with proto := some p }

/-- `on_ready` (lines 243-247): invoke immediately when a protocol is set,
otherwise register for one-time delivery. -/
def on_ready (cb : Nat) (s : FactoryState) : FactoryState :=
  match s.proto with
  | some p => { s with calls := s.calls ++ [(cb, p)] }
  | none => once cb s

/-- Interleavings of `on_ready` registrations and `ready` firings. -/
inductive FactoryEvent where
  | onReadyEv (cb : Nat)
  | readyEv (p : Nat)
  deriving DecidableEq, Repr

/-- Apply one factory event. -/
def factoryStep (s : FactoryState) (e : FactoryEvent) : FactoryState :=
  match e with
  | FactoryEvent.onReadyEv cb => on_ready cb s
  | FactoryEvent.readyEv p => ready p s

/-- Run a factory, created with `proto = None` and no listeners, through a
sequence of events. -/
def runFactory (evs : List FactoryEvent) : FactoryState :=
  evs.foldl factoryStep ⟨none, [], []⟩

/-- How many times callback `cb` has been invoked. -/
def callCount (cb : Nat) (s : FactoryState) : Nat :=
  s.calls.countP (fun c => c.1 == cb)

/-- How many copies of `cb` sit in the one-time listener list. -/
def onceCount (cb : Nat) (s : FactoryState) : Nat :=
  s.onceReady.countP (fun c => c == cb)

/-- How many times `cb` is passed to `on_ready` in an event sequence. -/
def regCount (cb : Nat) (evs : List FactoryEvent) : Nat :=
  evs.countP (fun e => e == FactoryEvent.onReadyEv cb)

/-! Helper lemmas shared by the claim theorems. -/

/-- `specWritesAux` lists exactly as many writes as it is asked for. -/
theorem specWritesAux_length (L : Nat) : ∀ k i, (specWritesAux L i k).length = k := by
  intro k
  induction k with
  | zero => intro i; rfl
  | succ k ih => intro i; simp [specWritesAux, ih]

/-- Entry `j` of the spec-side layout: offset `C * (i + j)`, size `C` except
for the last entry, which carries the remainder and the final flag. -/
theorem specWritesAux_getElem (L : Nat) :
    ∀ k i j, j < k →
      (specWritesAux L i k)[j]? =
        some ⟨SEND_CHUNK_SIZE * (i + j),
              if j = k - 1 then L - SEND_CHUNK_SIZE * (i + j) else SEND_CHUNK_SIZE,
              decide (j = k - 1)⟩ := by
  intro k
  induction k with
  | zero => intro i j hj; omega
  | succ k ih =>
    intro i j hj
    cases j with
    | zero =>
      simp only [specWritesAux, List.getElem?_cons_zero, Nat.add_zero, Nat.add_sub_cancel]
      by_cases hk : k = 0
      · simp [hk]
      · have hk2 : ¬ (0 = k) := fun h => hk h.symm
        simp [hk, hk2]
    | succ j =>
      have hrec := ih (i + 1) j (by omega)
      have harith : i + 1 + j = i + (j + 1) := by omega
      have hcond : (j = k - 1) = (j + 1 = k + 1 - 1) := by
        simp only [eq_iff_iff]
        omega
      simp only [specWritesAux, List.getElem?_cons_succ]
      rw [hrec, harith]
      simp only [hcond]

/-- When no `SendAsync` fails and `n` chunks really cover the
`L`-byte buffer, the `send_chunk_async` chain starting at index `i` issues
exactly the writes of the spec-side layout for indices `i …  n - 1`, raises
nothing, and releases the semaphore exactly once. -/
theorem send_chunk_async_ok (L n : Nat)
    (hlo : SEND_CHUNK_SIZE * (n - 1) < L) (hhi : L ≤ SEND_CHUNK_SIZE * n) :
    ∀ k i, i + k + 1 = n →
      send_chunk_async (fun _ => false) L n i = ⟨specWritesAux L i (k + 1), none, 1⟩ := by
  simp only [SEND_CHUNK_SIZE] at hlo hhi
  intro k
  induction k with
  | zero =>
    intro i hi
    rw [send_chunk_async.eq_def]
    have h1 : (i : Int) = (n : Int) - 1 := by omega
    rw [if_pos h1]
    have h2 : SEND_CHUNK_SIZE * i + (L - SEND_CHUNK_SIZE * i) ≤ L := by
      simp only [SEND_CHUNK_SIZE]; omega
    rw [if_pos h2]
    simp [specWritesAux]
  | succ k ih =>
    intro i hi
    rw [send_chunk_async.eq_def]
    have h1 : ¬ ((i : Int) = (n : Int) - 1) := by omega
    rw [if_neg h1]
    have h2 : SEND_CHUNK_SIZE * i + SEND_CHUNK_SIZE ≤ L := by
      simp only [SEND_CHUNK_SIZE]; omega
    rw [dif_pos h2]
    have hrec := ih (i + 1) (by omega)
    simp [hrec, specWritesAux]

/-- A non-empty send over an open socket from the initial semaphore count
issues exactly the spec-side layout and leaves the semaphore balanced. -/
theorem send_message_ok (L : Nat) (hL : 0 < L) :
    send_message (fun _ => false) (some WebSocketState.Open) 1 L
      = ⟨specWrites L, none, 1, 1, 1, false⟩ := by
  have hlo : SEND_CHUNK_SIZE * ((L + SEND_CHUNK_SIZE - 1) / SEND_CHUNK_SIZE - 1) < L := by
    simp only [SEND_CHUNK_SIZE]; omega
  have hhi : L ≤ SEND_CHUNK_SIZE * ((L + SEND_CHUNK_SIZE - 1) / SEND_CHUNK_SIZE) := by
    simp only [SEND_CHUNK_SIZE]; omega
  have h := send_chunk_async_ok L _ hlo hhi ((L + SEND_CHUNK_SIZE - 1) / SEND_CHUNK_SIZE - 1) 0
    (by simp only [SEND_CHUNK_SIZE]; omega)
  simp only [send_message]
  norm_num
  rw [h]
  simp [specWrites]
  congr 1
  simp only [SEND_CHUNK_SIZE]
  omega

/-- One listening step only reads the handler function when recording the
caught handler exception: the semaphore, assembly, dispatch log and stall
flag evolve identically for any two handlers. -/
theorem listen_step_agree (h1 h2 : String → Bool) (s1 s2 : LoopState) (ch : ReceiveResult)
    (ha : s1.sem = s2.sem) (hb : s1.content = s2.content)
    (hc : s1.dispatched = s2.dispatched) (hd : s1.stalled = s2.stalled) :
    (listen_step h1 s1 ch).sem = (listen_step h2 s2 ch).sem
    ∧ (listen_step h1 s1 ch).content = (listen_step h2 s2 ch).content
    ∧ (listen_step h1 s1 ch).dispatched = (listen_step h2 s2 ch).dispatched
    ∧ (listen_step h1 s1 ch).stalled = (listen_step h2 s2 ch).stalled := by
  simp only [listen_step, ha, hb, hc, hd]
  by_cases hst : s2.stalled
  · simp [hst, ha, hb, hc, hd]
  · simp only [hst, Bool.false_eq_true, if_false]
    cases hr : receive_chunk_step s2.sem s2.content ch <;> simp [hc]

/-- `listen_step_agree` extended along any chunk sequence. -/
theorem listen_foldl_agree (h1 h2 : String → Bool) :
    ∀ (chunks : List ReceiveResult) (s1 s2 : LoopState),
      s1.sem = s2.sem → s1.content = s2.content →
      s1.dispatched = s2.dispatched → s1.stalled = s2.stalled →
      (chunks.foldl (listen_step h1) s1).sem = (chunks.foldl (listen_step h2) s2).sem
      ∧ (chunks.foldl (listen_step h1) s1).content = (chunks.foldl (listen_step h2) s2).content
      ∧ (chunks.foldl (listen_step h1) s1).dispatched
          = (chunks.foldl (listen_step h2) s2).dispatched
      ∧ (chunks.foldl (listen_step h1) s1).stalled
          = (chunks.foldl (listen_step h2) s2).stalled := by
  intro chunks
  induction chunks with
  | nil => intro s1 s2 a b c d; exact ⟨a, b, c, d⟩
  | cons ch chunks ih =>
    intro s1 s2 a b c d
    have hstep := listen_step_agree h1 h2 s1 s2 ch a b c d
    simp only [List.foldl_cons]
    exact ih _ _ hstep.1 hstep.2.1 hstep.2.2.1 hstep.2.2.2

/-- The caught-and-logged handler failures are exactly the dispatched
payloads on which the handler raises. -/
theorem listen_foldl_filter (h : String → Bool) :
    ∀ (chunks : List ReceiveResult) (s : LoopState),
      s.handlerErrors = s.dispatched.filter h →
      (chunks.foldl (listen_step h) s).handlerErrors
        = ((chunks.foldl (listen_step h) s).dispatched).filter h := by
  intro chunks
  induction chunks with
  | nil => intro s hs; exact hs
  | cons ch chunks ih =>
    intro s hs
    simp only [List.foldl_cons]
    apply ih
    simp only [listen_step]
    by_cases hst : s.stalled
    · simp [hst, hs]
    · simp only [hst, Bool.false_eq_true, if_false]
      cases hr : receive_chunk_step s.sem s.content ch with
      | blocked sem2 content2 => simp [hs]
      | closed sem2 content2 => simp [hs]
      | more sem2 content2 => simp [hs]
      | done sem2 content2 =>
        by_cases hb : h (String.join content2) <;> simp [hb, List.filter_append, hs]

/-- One factory event grows invocations-plus-pending-registrations of a
callback by at most one, and only when that callback is being registered. -/
theorem factoryStep_counts (cb : Nat) (s : FactoryState) (e : FactoryEvent) :
    callCount cb (factoryStep s e) + onceCount cb (factoryStep s e) ≤
      callCount cb s + onceCount cb s + (if e == FactoryEvent.onReadyEv cb then 1 else 0) := by
  cases e with
  | onReadyEv cb2 =>
    simp only [factoryStep, on_ready]
    cases hp : s.proto with
    | some p =>
      simp only [callCount, onceCount, List.countP_append]
      by_cases hc : cb2 = cb <;> simp [hc, List.countP_cons] <;> omega
    | none =>
      simp only [once, callCount, onceCount, List.countP_append]
      by_cases hc : cb2 = cb <;> simp [hc, List.countP_cons] <;> omega
  | readyEv p =>
    simp only [factoryStep, ready, emit]
    simp only [callCount, onceCount, List.countP_append, List.countP_map, List.countP_nil]
    have hfun : ((fun c => c.1 == cb) ∘ fun c => ((c : Nat), p)) = fun c => c == cb := by
      funext c
      rfl
    rw [hfun]
    simp

/-- Along any event sequence, invocations plus pending registrations of a
callback are bounded by its initial counts plus its registrations. -/
theorem runFactory_counts (cb : Nat) :
    ∀ (evs : List FactoryEvent) (s : FactoryState),
      callCount cb (evs.foldl factoryStep s) + onceCount cb (evs.foldl factoryStep s) ≤
        callCount cb s + onceCount cb s + regCount cb evs := by
  intro evs
  induction evs with
  | nil => intro s; simp [regCount]
  | cons e evs ih =>
    intro s
    simp only [List.foldl_cons]
    have h1 := ih (factoryStep s e)
    have h2 := factoryStep_counts cb s e
    have h3 : regCount cb (e :: evs)
        = regCount cb evs + (if e == FactoryEvent.onReadyEv cb then 1 else 0) := by
      simp [regCount, List.countP_cons]
    omega

/-! Claim theorems. -/

/-- Claim C1: the spec claims the write lock has at most one holder at any
instant, with the final fragment releasing only if the lock is held, so that
every acquisition matches exactly one release and the count never exceeds
one.  The code violates this: `receive_chunk_async` skips `Wait` for a
fragment flagged `EndOfMessage` but still runs `semaphore.Release()`
unconditionally, so a single-chunk message raises the count from its initial
1 to 2 (and a second single-chunk message to 3) — a release with no matching
acquisition, and a count above one. -/
theorem C1_receive_releases_lock_it_never_acquired :
    start_listening (fun _ => false) 1 [⟨"hi", true, WebSocketMessageType.Text⟩]
      = ⟨2, [], ["hi"], [], false⟩
    ∧ start_listening (fun _ => false) 1
        [⟨"hi", true, WebSocketMessageType.Text⟩, ⟨"yo", true, WebSocketMessageType.Text⟩]
      = ⟨3, [], ["hi", "yo"], [], false⟩ := by decide

/-- Claim C2: the spec claims a message arriving as chunks flagged
(not-final, not-final, final) is dispatched exactly once as the concatenation
of the decoded chunks.  The code instead acquires the semaphore on every
non-final fragment: the first fragment takes the count from 1 to 0 and the
second fragment's `semaphore.Wait` blocks forever (nothing on this path
releases), so the assembly stalls after `"a"` and `on_message` is never
invoked. -/
theorem C2_three_chunk_receive_blocks_no_dispatch :
    start_listening (fun _ => false) 1
        [⟨"a", false, WebSocketMessageType.Text⟩,
         ⟨"b", false, WebSocketMessageType.Text⟩,
         ⟨"c", true, WebSocketMessageType.Text⟩]
      = ⟨0, ["a"], [], [], true⟩ := by decide

/-- Claim C3: the spec claims every lock acquisition in `send_message` is
matched by exactly one release on every exit path, including aborts on
transport errors.  In the code both `except` clauses only log and re-raise:
when `SendAsync` fails on the first chunk of a 10-byte payload the call
returns with the semaphore still at 0 (one `Wait`, zero `Release`) — the
acquisition is never matched. -/
theorem C3_send_error_leaks_write_lock :
    send_message (fun i => i == 0) (some WebSocketState.Open) 1 10
      = ⟨[], some (SendError.transport 0), 0, 1, 0, false⟩ := by
  simp only [send_message]
  rw [send_chunk_async.eq_def]
  norm_num [SEND_CHUNK_SIZE]

/-- Claim C4: calling `send_message` while the socket state is not `Open`
raises the `RosBridgeException` synchronously, before the `try` block, so the
semaphore is neither waited on nor released and no write is issued. -/
theorem C4_send_not_open_fails_without_touching_lock (sendRaises : Nat → Bool)
    (st : WebSocketState) (sem L : Nat) (hst : st ≠ WebSocketState.Open) :
    send_message sendRaises (some st) sem L
      = ⟨[], some (SendError.rosBridgeNotOpen st), sem, 0, 0, false⟩ := by
  simp [send_message, hst]

/-- Witness for C4 at the concrete state `Closed` and a 2500-byte payload. -/
theorem C4_send_not_open_witness :
    WebSocketState.Closed ≠ WebSocketState.Open
    ∧ send_message (fun _ => false) (some WebSocketState.Closed) 1 2500
        = ⟨[], some (SendError.rosBridgeNotOpen WebSocketState.Closed), 1, 0, 0, false⟩ :=
  ⟨by decide,
   C4_send_not_open_fails_without_touching_lock (fun _ => false) WebSocketState.Closed 1 2500
     (by decide)⟩

/-- Claim C5: for byte length `L > 0` and chunk size 1024, `send_message`
issues exactly `⌈L / 1024⌉` sequential writes — every non-final write of 1024
bytes and not flagged final, the last write of `L mod 1024` bytes (1024 when
1024 divides `L`) and flagged final — and a 2500-byte payload produces
exactly the three writes of sizes 1024, 1024, 452. -/
theorem C5_send_splits_into_ceil_chunks (L : Nat) (hL : 0 < L) :
    send_message (fun _ => false) (some WebSocketState.Open) 1 L
      = ⟨specWrites L, none, 1, 1, 1, false⟩
    ∧ (specWrites L).length = (L + SEND_CHUNK_SIZE - 1) / SEND_CHUNK_SIZE
    ∧ (∀ j, j < (specWrites L).length →
        (specWrites L)[j]? =
          some ⟨SEND_CHUNK_SIZE * j,
                if j = (specWrites L).length - 1 then
                  (if L % SEND_CHUNK_SIZE = 0 then SEND_CHUNK_SIZE else L % SEND_CHUNK_SIZE)
                else SEND_CHUNK_SIZE,
                decide (j = (specWrites L).length - 1)⟩)
    ∧ send_message (fun _ => false) (some WebSocketState.Open) 1 2500
      = ⟨[⟨0, 1024, false⟩, ⟨1024, 1024, false⟩, ⟨2048, 452, true⟩], none, 1, 1, 1, false⟩ := by
  have hlen : (specWrites L).length = (L + SEND_CHUNK_SIZE - 1) / SEND_CHUNK_SIZE :=
    specWritesAux_length L _ 0
  refine ⟨send_message_ok L hL, hlen, ?_, ?_⟩
  · intro j hj
    rw [hlen] at hj ⊢
    rw [specWrites, specWritesAux_getElem L _ 0 j hj]
    have hz : 0 + j = j := by omega
    rw [hz]
    by_cases hjl : j = (L + SEND_CHUNK_SIZE - 1) / SEND_CHUNK_SIZE - 1
    · simp only [hjl, if_pos rfl]
      have hlast : L - SEND_CHUNK_SIZE * ((L + SEND_CHUNK_SIZE - 1) / SEND_CHUNK_SIZE - 1)
          = if L % SEND_CHUNK_SIZE = 0 then SEND_CHUNK_SIZE else L % SEND_CHUNK_SIZE := by
        simp only [SEND_CHUNK_SIZE]
        by_cases hm : L % 1024 = 0 <;> simp [hm] <;> omega
      rw [hlast]
    · simp [hjl]
  · rw [send_message_ok 2500 (by norm_num)]
    decide

/-- Witness for C5 at the concrete payload length 2500. -/
theorem C5_send_splits_witness :
    0 < 2500
    ∧ (send_message (fun _ => false) (some WebSocketState.Open) 1 2500
        = ⟨specWrites 2500, none, 1, 1, 1, false⟩
      ∧ (specWrites 2500).length = (2500 + SEND_CHUNK_SIZE - 1) / SEND_CHUNK_SIZE
      ∧ (∀ j, j < (specWrites 2500).length →
          (specWrites 2500)[j]? =
            some ⟨SEND_CHUNK_SIZE * j,
                  if j = (specWrites 2500).length - 1 then
                    (if 2500 % SEND_CHUNK_SIZE = 0 then SEND_CHUNK_SIZE
                     else 2500 % SEND_CHUNK_SIZE)
                  else SEND_CHUNK_SIZE,
                  decide (j = (specWrites 2500).length - 1)⟩)
      ∧ send_message (fun _ => false) (some WebSocketState.Open) 1 2500
        = ⟨[⟨0, 1024, false⟩, ⟨1024, 1024, false⟩, ⟨2048, 452, true⟩], none, 1, 1, 1, false⟩)
    ∧ specWrites 2500 = [⟨0, 1024, false⟩, ⟨1024, 1024, false⟩, ⟨2048, 452, true⟩] :=
  ⟨by decide, C5_send_splits_into_ceil_chunks 2500 (by decide), by decide⟩

/-- Claim C6 (counterexample): the claim that a second `dispose()` does not
re-signal disconnect is false — `dispose` calls
`self.factory.manager.trigger_disconnect()` unconditionally, so the second
call signals the event loop manager again (call count 2), even though the
socket is indeed not disposed again. -/
theorem C6_counterexample_second_dispose_resignals :
    (dispose protoInit).triggerDisconnectCalls = 1
    ∧ (dispose (dispose protoInit)).triggerDisconnectCalls = 2
    ∧ (dispose (dispose protoInit)).socketDisposeCalls
        = (dispose protoInit).socketDisposeCalls := by decide

/-- Claim C6 (amended): on the second and every later call, `dispose` does
not dispose the socket again (the `if self.socket` guard fails once the
socket is `None`), and the observable state — socket, disconnect event,
cancellation token — is unchanged; however the repeat call does invoke
`trigger_disconnect` and token cancellation once more, it merely finds the
event already set and the token already cancelled. -/
theorem C6_second_dispose_releases_nothing_but_resignals (s : ProtocolState) :
    (dispose (dispose s)).socketDisposeCalls = (dispose s).socketDisposeCalls
    ∧ (dispose (dispose s)).socket = (dispose s).socket
    ∧ (dispose (dispose s)).disconnectEventSet = (dispose s).disconnectEventSet
    ∧ (dispose (dispose s)).tokenCanceled = (dispose s).tokenCanceled
    ∧ (dispose (dispose s)).triggerDisconnectCalls = (dispose s).triggerDisconnectCalls + 1
    ∧ (dispose (dispose s)).tokenCancelCalls = (dispose s).tokenCancelCalls + 1 := by
  cases h : s.socket <;> simp [dispose, h]

/-- Claim C7 (counterexample): after `dispose()` sets `self.socket = None`, a
`send_message` call evaluates `self.socket.State` and dies with
`AttributeError` — not the deliberate `RosBridgeException` the claim's
"well-defined error" refers to. -/
theorem C7_counterexample_not_a_rosbridge_error :
    (send_message (fun _ => false) ((dispose protoInit).socket) 1 5).error
        = some SendError.attributeErrorNoneState
    ∧ SendError.attributeErrorNoneState.isRosBridgeException = false := by decide

/-- Claim C7 (amended): after `dispose()` the socket reference is `None`, and
every subsequent `send_message` fails immediately — before any semaphore
operation or write — but with an `AttributeError` from the `.State` access on
`None`, not with the well-defined `RosBridgeException`. -/
theorem C7_send_after_dispose_raises_attribute_error (sendRaises : Nat → Bool)
    (s : ProtocolState) (sem L : Nat) :
    (dispose s).socket = none
    ∧ send_message sendRaises ((dispose s).socket) sem L
        = ⟨[], some SendError.attributeErrorNoneState, sem, 0, 0, false⟩ := by
  have hs : (dispose s).socket = none := by
    cases h : s.socket <;> simp [dispose, h]
  exact ⟨hs, by rw [hs]; rfl⟩

/-- Claim C8: an exception raised by the externally supplied handler while
dispatching message N is caught at the dispatch boundary (recorded in
`handlerErrors`, exactly the dispatched payloads the handler raises on) and
does not change which messages the loop receives and dispatches: the
dispatch log, semaphore and stall flag are those of a never-raising handler.
Concretely, a handler raising on `"boom"` still lets the following `"ok"`
message be dispatched. -/
theorem C8_handler_exception_does_not_stop_loop (handlerRaises : String → Bool)
    (sem : Nat) (chunks : List ReceiveResult) :
    (start_listening handlerRaises sem chunks).dispatched
        = (start_listening (fun _ => false) sem chunks).dispatched
    ∧ (start_listening handlerRaises sem chunks).handlerErrors
        = ((start_listening handlerRaises sem chunks).dispatched).filter handlerRaises
    ∧ (start_listening handlerRaises sem chunks).stalled
        = (start_listening (fun _ => false) sem chunks).stalled
    ∧ start_listening (fun p => p == "boom") 1
        [⟨"boom", true, WebSocketMessageType.Text⟩, ⟨"ok", true, WebSocketMessageType.Text⟩]
        = ⟨3, [], ["boom", "ok"], ["boom"], false⟩ := by
  have hagree := listen_foldl_agree handlerRaises (fun _ => false) chunks
    ⟨sem, [], [], [], false⟩ ⟨sem, [], [], [], false⟩ rfl rfl rfl rfl
  have hfil := listen_foldl_filter handlerRaises chunks ⟨sem, [], [], [], false⟩ rfl
  exact ⟨hagree.2.2.1, hfil, hagree.2.2.2, by decide⟩

/-- Claim C9: `on_ready` invokes the callback immediately with the active
protocol when one is set; otherwise it registers the callback for one-time
delivery, which the next `ready` performs (and deregisters); and over any
event sequence in which a callback is registered at most once, that callback
is invoked at most once. -/
theorem C9_on_ready_at_most_once_delivery :
    (∀ (s : FactoryState) (cb p : Nat), s.proto = some p →
        on_ready cb s = { s with calls := s.calls ++ [(cb, p)] })
    ∧ (∀ (s : FactoryState) (cb p : Nat), s.proto = none →
        (ready p (on_ready cb s)).calls
            = s.calls ++ (s.onceReady ++ [cb]).map (fun c => (c, p))
          ∧ (ready p (on_ready cb s)).onceReady = [])
    ∧ (∀ (evs : List FactoryEvent) (cb : Nat), regCount cb evs ≤ 1 →
        callCount cb (runFactory evs) ≤ 1) := by
  refine ⟨?_, ?_, ?_⟩
  · intro s cb p hp
    simp [on_ready, hp]
  · intro s cb p hp
    simp [ready, emit, on_ready, once, hp]
  · intro evs cb hreg
    have h := runFactory_counts cb evs ⟨none, [], []⟩
    have hc0 : callCount cb ⟨none, [], []⟩ = 0 := rfl
    have ho0 : onceCount cb ⟨none, [], []⟩ = 0 := rfl
    rw [hc0, ho0] at h
    unfold runFactory
    omega

/-- Witness for C9: callback 7 against a ready factory, callback 7 delivered
by a later `ready`, and a trace registering callback 7 once. -/
theorem C9_on_ready_witness :
    on_ready 7 ⟨some 3, [], []⟩ = ⟨some 3, [], [(7, 3)]⟩
    ∧ ((ready 3 (on_ready 7 ⟨none, [], []⟩)).calls = [(7, 3)]
       ∧ (ready 3 (on_ready 7 ⟨none, [], []⟩)).onceReady = [])
    ∧ callCount 7 (runFactory [FactoryEvent.onReadyEv 7, FactoryEvent.readyEv 3]) ≤ 1 :=
  ⟨C9_on_ready_at_most_once_delivery.1 ⟨some 3, [], []⟩ 7 3 rfl,
   C9_on_ready_at_most_once_delivery.2.1 ⟨none, [], []⟩ 7 3 rfl,
   C9_on_ready_at_most_once_delivery.2.2 [FactoryEvent.onReadyEv 7, FactoryEvent.readyEv 3] 7
     (by decide)⟩

/-- Claim C10: for the empty payload over an open socket, `send_message`
computes `chunks_count = 0`, so in the first `send_chunk_async` invocation
`is_last_message = (0 == -1)` is false and a 1024-byte segment at offset 0 of
the 0-byte buffer is requested — the `ArraySegment` constructor throws — and
the semaphore acquired by `send_message` is never released (final count 0
after one `Wait` and zero `Release`s).  Had the invocation been flagged last,
the segment would have been the valid empty one `⟨0, 0⟩`. -/
theorem C10_empty_payload_out_of_range_lock_leak :
    (0 + SEND_CHUNK_SIZE - 1) / SEND_CHUNK_SIZE = 0
    ∧ send_chunk_async (fun _ => false) 0 0 0 = ⟨[], some SendError.argumentOutOfRange, 0⟩
    ∧ send_message (fun _ => false) (some WebSocketState.Open) 1 0
        = ⟨[], some SendError.argumentOutOfRange, 0, 1, 0, false⟩ := by
  refine ⟨by decide, ?_, ?_⟩
  · rw [send_chunk_async.eq_def]
    norm_num [SEND_CHUNK_SIZE]
  · simp only [send_message]
    rw [send_chunk_async.eq_def]
    norm_num [SEND_CHUNK_SIZE]
